import Mathlib

/-
Verification development for the dbdiffer repository (Go).

Shallow embedding of the pure schema-diff / DDL-synthesis core:
  * differ.go        : the data model (Result, ResultFields, ResultIndexes,
                       Table, Field, Index) and the Equal / IsEmpty methods.
  * mysql/mysql.go   : the pure comparison core of Driver.Diff (lines 135-223)
                       and Driver.Generate (lines 226-305) together with the
                       rendering helpers (sqlnull, sqldefault, sqlextra,
                       sqlcomment, sqluniq, sqlcol, escape, after).

Database acquisition (the tables/fields/indexes queries) is I/O and out of
scope; the diff core is embedded as a function of two in-memory snapshots,
exactly as the Go code consumes the query results.

Go `nil` pointers (`*string`) are embedded as `Option String`; a nil-pointer
dereference (a Go runtime panic) is embedded as the `none` result of an
`Option`-valued function.  Go maps from names to positions (`tablespos`,
`fieldspos`, `indexpos`) are embedded by `posOf`, which returns the position
the final Go map holds for a name (the last write wins, as for a Go map).
-/

deriving instance DecidableEq for Except

namespace Dbdiffer

/-- Embeds `Field` from differ.go.  `Collation` and `Default` are `*string`
in Go (nil embedded as `none`).  The Go field names `Field` and `Type` are
not legal Lean field names here and are embedded as `FieldName` and
`FieldType`. -/
structure Field where
  FieldName : String
  FieldType : String
  Collation : Option String
  Null : String
  Key : String
  Default : Option String
  Extra : String
  Comment : String
  After : String
  deriving DecidableEq, Inhabited

/-- Embeds `Index` from differ.go.  `NonUnique` is a Go `int`;
`ColumnName` is `[]string`. -/
structure Index where
  Table : String
  NonUnique : Int
  KeyName : String
  ColumnName : List String
  Collation : String
  IndexType : String
  Comment : String
  IndexComment : String
  deriving DecidableEq, Inhabited

/-- Embeds `ResultFields` from differ.go. -/
structure ResultFields where
  Create : List Field
  Drop : List Field
  Change : List Field
  Add : List Field
  deriving DecidableEq, Inhabited

/-- Embeds `ResultIndexes` from differ.go. -/
structure ResultIndexes where
  Create : List Index
  Add : List Index
  Drop : List Index
  deriving DecidableEq, Inhabited

/-- Embeds `Table` from differ.go. -/
structure Table where
  Name : String
  Engine : String
  Version : String
  RowFormat : String
  Options : String
  Comment : String
  Collation : String
  Fields : ResultFields
  Indexes : ResultIndexes
  deriving DecidableEq, Inhabited

/-- Embeds `Result` from differ.go: tables to drop, create and change. -/
structure Result where
  Drop : List Table
  Create : List Table
  Change : List Table
  deriving DecidableEq, Inhabited

/-- Embeds `Result.IsEmpty` (differ.go lines 19-21). -/
def Result.IsEmpty (r : Result) : Bool :=
  r.Drop.isEmpty && r.Create.isEmpty && r.Change.isEmpty

/-- Embeds `ResultFields.IsEmpty` (differ.go lines 30-32). -/
def ResultFields.IsEmpty (f : ResultFields) : Bool :=
  f.Create.isEmpty && f.Drop.isEmpty && f.Change.isEmpty && f.Add.isEmpty

/-- Embeds `ResultIndexes.IsEmpty` (differ.go lines 40-42). -/
def ResultIndexes.IsEmpty (f : ResultIndexes) : Bool :=
  f.Create.isEmpty && f.Drop.isEmpty && f.Add.isEmpty

/-- Embeds `Table.Equal` (differ.go lines 56-64): compares name, engine,
version, row-format, options, comment and collation. -/
def Table.Equal (t t2 : Table) : Bool :=
  t.Name == t2.Name &&
  t.Engine == t2.Engine &&
  t.Version == t2.Version &&
  t.RowFormat == t2.RowFormat &&
  t.Options == t2.Options &&
  t.Comment == t2.Comment &&
  t.Collation == t2.Collation

/-- Embeds `Table.IsEmpty` (differ.go lines 66-69).  `Name` is not examined. -/
def Table.IsEmpty (t : Table) : Bool :=
  t.Engine == "" && t.Version == "" && t.RowFormat == "" && t.Options == "" &&
  t.Comment == "" && t.Collation == "" &&
  t.Fields.IsEmpty && t.Indexes.IsEmpty

/-- Embeds the Go expression `((a == nil && b == nil) || *a == *b)` used twice
inside `Field.Equal`.  Go evaluates both dereferences when the first disjunct
is false, so when exactly one pointer is nil the expression panics: embedded
as `none`. -/
def derefEq (a b : Option String) : Option Bool :=
  match a, b with
  | none, none => some true
  | some x, some y => some (x == y)
  | _, _ => none

/-- Embeds `Field.Equal` (differ.go lines 83-92).  The `Key` attribute is
commented out in the source and not compared; `After` is likewise not
compared.  Go `&&` short-circuits left to right, so the (possibly panicking)
collation and default comparisons are only reached when every earlier
conjunct is true; a panic is embedded as `none`. -/
def Field.Equal (f f2 : Field) : Option Bool :=
  if f.FieldName != f2.FieldName then some false
  else if f.FieldType != f2.FieldType then some false
  else
    match derefEq f.Collation f2.Collation with
    | none => none
    | some c =>
      if !c then some false
      else if f.Null != f2.Null then some false
      else
        match derefEq f.Default f2.Default with
        | none => none
        | some d =>
          if !d then some false
          else some (f.Extra == f2.Extra && f.Comment == f2.Comment)

/-- Embeds `Index.Equal` (differ.go lines 105-114); `reflect.DeepEqual` on
`[]string` is list equality. -/
def Index.Equal (i i2 : Index) : Bool :=
  i.Table == i2.Table &&
  i.NonUnique == i2.NonUnique &&
  i.KeyName == i2.KeyName &&
  i.ColumnName == i2.ColumnName &&
  i.Collation == i2.Collation &&
  i.IndexType == i2.IndexType &&
  i.Comment == i2.Comment &&
  i.IndexComment == i2.IndexComment

/-- Embeds the Go helper `escape` (mysql.go lines 519-525).
`strings.NewReplacer` with the two single-character patterns backslash and
single quote performs one left-to-right pass replacing each occurrence, which
over single-character patterns is exactly a character map. -/
def escape (s : String) : String :=
  s.toList.foldl
    (fun acc c =>
      acc ++ (if c = '\\' then "\\\\"
              else if c = '\'' then "\\'"
              else String.singleton c)) ""

/-- Embeds `strings.ToLower` as used in `sqldefault`.  Character-wise
lowering; `Char.toLower` agrees with Go's Unicode lowering on ASCII letters,
and the strings the result is compared against (the type-family list) are
pure lowercase ASCII, so a non-ASCII character can match under neither
lowering. -/
def lowerStr (s : String) : String :=
  String.mk (s.toList.map Char.toLower)

/-- Embeds `strings.Split(s, "_")[0]` as used in `sqlcol` and in Generate:
the prefix of the string before its first underscore (`Split` never returns
an empty slice, so index 0 is total: no underscore yields the whole string). -/
def charsetOf (s : String) : String :=
  String.mk (s.toList.takeWhile (fun c => c != '_'))

/-- Embeds `strings.Replace(s, old, new, -1)`: left-to-right replacement of
every non-overlapping occurrence of `pat` by `rep`.  The fuel argument (the
input length at the call site) makes the recursion structural; every step
consumes at least one input character, so the fuel never runs out.  The only
caller passes a non-empty pattern. -/
def replaceAll (pat rep : List Char) : Nat → List Char → List Char
  | _, [] => []
  | 0, l => l
  | Nat.succ fuel, c :: rest =>
    if pat.isPrefixOf (c :: rest) then
      rep ++ replaceAll pat rep fuel (List.drop pat.length (c :: rest))
    else
      c :: replaceAll pat rep fuel rest

/-- Embeds `sqlnull` (mysql.go lines 463-472). -/
def sqlnull (s : String) : String :=
  match s with
  | "NO" => " NOT NULL"
  | "YES" => " NULL"
  | _ => ""

/-- Embeds `sqldefault` (mysql.go lines 474-487).  `typ[:strings.Index(typ,
"(")]` keeps the characters before the first parenthesis. -/
def sqldefault (typ : String) (s : Option String) : String :=
  match s with
  | none => ""
  | some v =>
    let t := if typ.toList.contains '(' then
               String.mk (typ.toList.takeWhile (fun c => c != '(')) else typ
    if lowerStr t ∈ ["varchar", "char", "blob", "text", "tinyblob", "tinytext",
                    "mediumblob", "mediumtext", "longblob", "longtext", "enum"]
    then " DEFAULT '" ++ escape v ++ "'"
    else " DEFAULT " ++ v

/-- Embeds `sqlextra` (mysql.go lines 489-491): a space plus the string with
every occurrence of the mysql-8 `DEFAULT_GENERATED` marker removed. -/
def sqlextra (s : String) : String :=
  " " ++ String.mk (replaceAll "DEFAULT_GENERATED".toList [] s.toList.length s.toList)

/-- Embeds `sqlcomment` (mysql.go lines 493-500). -/
def sqlcomment (s : String) : String :=
  if s = "" then "" else " COMMENT '" ++ escape s ++ "'"

/-- Embeds `sqluniq` (mysql.go lines 502-507). -/
def sqluniq (s : Int) : String :=
  if s = 0 then "UNIQUE" else "INDEX"

/-- Embeds `sqlcol` (mysql.go lines 509-517); `strings.Split(*s, "_")[0]` is
the charset before the first underscore. -/
def sqlcol (s : Option String) : String :=
  match s with
  | none => ""
  | some v => " CHARACTER SET " ++ charsetOf v ++ " COLLATE " ++ v

/-- Embeds `after` (mysql.go lines 527-532). -/
def after (s : String) : String :=
  if s = "" then "" else " AFTER `" ++ s ++ "`"

/-- Embeds the `DROP TABLE` rendering in Generate (mysql.go line 233). -/
def dropTableStmt (t : Table) : String :=
  "DROP TABLE IF EXISTS `" ++ t.Name ++ "`;"

/-- Embeds the column rendering inside the CREATE TABLE loop (mysql.go
line 241). -/
def createFieldDef (f : Field) : String :=
  "`" ++ f.FieldName ++ "` " ++ f.FieldType ++ sqlnull f.Null ++
  sqldefault f.FieldType f.Default ++ sqlextra f.Extra ++ sqlcomment f.Comment

/-- Embeds the index rendering inside the CREATE TABLE loop (mysql.go
lines 243-249). -/
def createIndexDef (i : Index) : String :=
  if i.KeyName == "PRIMARY" then
    " PRIMARY KEY (`" ++ String.intercalate "`, `" i.ColumnName ++ "`)"
  else
    sqluniq i.NonUnique ++ " `" ++ i.KeyName ++ "` (`" ++
    String.intercalate "`, `" i.ColumnName ++ "`)"

/-- Embeds the CREATE TABLE rendering (mysql.go lines 238-252). -/
def createTableStmt (t : Table) : String :=
  "CREATE TABLE IF NOT EXISTS `" ++ t.Name ++ "` (" ++
  String.intercalate ", "
    (t.Fields.Create.map createFieldDef ++ t.Indexes.Create.map createIndexDef) ++
  ") ENGINE = " ++ t.Engine ++ " DEFAULT CHARSET = " ++
  charsetOf t.Collation ++ ";"

/-- Embeds the attribute-level ALTER rendering for a changed table (mysql.go
lines 257-267); the `ENGIINE` and `ROWFORMAT` spellings are verbatim from the
source. -/
def alterTableStmts (t : Table) : List String :=
  if t.Engine != "" || t.RowFormat != "" || t.Comment != "" || t.Collation != "" then
    ["ALTER TABLE `" ++ t.Name ++ "`" ++
     " ENGIINE = '" ++ t.Engine ++ "'" ++
     " ROWFORMAT = '" ++ t.RowFormat ++ "'" ++
     " COMMENT = '" ++ t.Comment ++ "'" ++
     " DEFAULT CHARACTER SET " ++ charsetOf t.Collation ++
     " COLLATE " ++ t.Collation ++ ";"]
  else []

/-- Embeds the index-drop rendering for a changed table (mysql.go
lines 269-275). -/
def dropIndexStmt (i : Index) : String :=
  if i.KeyName == "PRIMARY" then
    "ALTER TABLE `" ++ i.Table ++ "` DROP PRIMARY KEY;"
  else
    "ALTER TABLE `" ++ i.Table ++ "` DROP INDEX `" ++ i.KeyName ++ "`;"

/-- Embeds the column-drop rendering for a changed table (mysql.go line 279). -/
def dropFieldStmt (tn : String) (f : Field) : String :=
  "ALTER TABLE `" ++ tn ++ "` DROP `" ++ f.FieldName ++ "`;"

/-- Embeds the column-add rendering for a changed table (mysql.go line 284). -/
def addFieldStmt (tn : String) (f : Field) : String :=
  "ALTER TABLE `" ++ tn ++ "` ADD `" ++ f.FieldName ++ "` " ++ f.FieldType ++
  sqlcol f.Collation ++ sqlnull f.Null ++ sqldefault f.FieldType f.Default ++
  sqlextra f.Extra ++ sqlcomment f.Comment ++ after f.After ++ ";"

/-- Embeds the column-change rendering for a changed table (mysql.go
line 289). -/
def changeFieldStmt (tn : String) (f : Field) : String :=
  "ALTER TABLE `" ++ tn ++ "` CHANGE `" ++ f.FieldName ++ "` `" ++ f.FieldName ++ "` " ++
  f.FieldType ++ sqlcol f.Collation ++ sqlnull f.Null ++ sqldefault f.FieldType f.Default ++
  sqlextra f.Extra ++ sqlcomment f.Comment ++ ";"

/-- Embeds the index-add rendering for a changed table (mysql.go
lines 293-299). -/
def addIndexStmt (i : Index) : String :=
  if i.KeyName == "PRIMARY" then
    "ALTER TABLE `" ++ i.Table ++ "` ADD PRIMARY KEY (`" ++
    String.intercalate "`, `" i.ColumnName ++ "`);"
  else
    "ALTER TABLE `" ++ i.Table ++ "` ADD " ++ sqluniq i.NonUnique ++ " `" ++
    i.KeyName ++ "` (`" ++ String.intercalate "`, `" i.ColumnName ++ "`);"

/-- Embeds the per-table statement block of the ChangeTables section of
Generate (mysql.go lines 256-301): attribute ALTER, index drops, column
drops, column adds, column changes, index adds, in that order. -/
def changeStmts (t : Table) : List String :=
  alterTableStmts t ++
  t.Indexes.Drop.map dropIndexStmt ++
  t.Fields.Drop.map (dropFieldStmt t.Name) ++
  t.Fields.Add.map (addFieldStmt t.Name) ++
  t.Fields.Change.map (changeFieldStmt t.Name) ++
  t.Indexes.Add.map addIndexStmt

/-- Embeds `Driver.Generate` (mysql.go lines 226-305).  The Go function has
result type `([]string, error)`, embedded as `Except String (List String)`;
every return statement in the source returns a nil error, i.e. `Except.ok`. -/
def Generate (result : Result) : Except String (List String) :=
  if result.IsEmpty then Except.ok []
  else
    Except.ok
      (result.Drop.map dropTableStmt ++
       result.Create.map createTableStmt ++
       (result.Change.map changeStmts).flatten)

/-- Position a Go `map[string]int` built by repeated `m[key(a)] = position`
writes holds for `name` after inserting every element of the list in order:
the position of the last element whose key is `name` (a later write to the
same key overwrites an earlier one), `none` when no element has that key.
Embeds `tablespos`, `fieldspos` and `indexpos` from mysql.go. -/
def posOf (key : α → String) : List α → String → Option Nat
  | [], _ => none
  | a :: rest, name =>
    match posOf key rest name with
    | some i => some (i + 1)
    | none => if key a = name then some 0 else none

/-- An in-memory schema snapshot as Driver.Diff materialises one before
comparing (mysql.go lines 94-133): the table list from `tables`, and per
table name the field list from `fields` and the index list from `indexes`.
The name-to-position maps the Go code also stores are recomputed by `posOf`,
which yields exactly the map the Go construction builds. -/
structure Snapshot where
  tables : List Table
  fields : String → List Field
  indexes : String → List Index

/-- Embeds the field loop over the old table's fields (mysql.go
lines 197-208): a missing field is dropped, a field whose `Field.Equal`
comparison is true is skipped, otherwise the new field record is a change.
Returns `(drops, changes)`; `none` embeds a nil-pointer panic inside
`Field.Equal`. -/
def fieldOldLoop (nf : List Field) (npos : String → Option Nat) :
    List Field → Option (List Field × List Field)
  | [] => some ([], [])
  | of :: rest =>
    match npos of.FieldName with
    | none =>
      match fieldOldLoop nf npos rest with
      | none => none
      | some (d, c) => some (of :: d, c)
    | some pos =>
      match Field.Equal of (nf.getD pos default) with
      | none => none
      | some true => fieldOldLoop nf npos rest
      | some false =>
        match fieldOldLoop nf npos rest with
        | none => none
        | some (d, c) => some (d, nf.getD pos default :: c)

/-- Embeds the drop side of the index loop over the old table's indexes
(mysql.go lines 172-184): an old index missing from the new table, or present
but unequal, is dropped. -/
def indexDrops (nidx oidx : List Index) : List Index :=
  oidx.filter (fun oi =>
    match posOf Index.KeyName nidx oi.KeyName with
    | none => true
    | some p => !(oi.Equal (nidx.getD p default)))

/-- Embeds the add side of the index loop over the old table's indexes
(mysql.go lines 176-183): an index present in both tables but unequal
contributes the new record as an add, paired with the drop of the old one. -/
def indexAddsRepl (nidx oidx : List Index) : List Index :=
  oidx.filterMap (fun oi =>
    match posOf Index.KeyName nidx oi.KeyName with
    | none => none
    | some p =>
      if oi.Equal (nidx.getD p default) then none else some (nidx.getD p default))

/-- Embeds the loop over the new table's indexes (mysql.go lines 185-190):
a new index missing from the old table is added. -/
def indexAddsNew (nidx oidx : List Index) : List Index :=
  nidx.filter (fun ni => (posOf Index.KeyName oidx ni.KeyName).isNone)

/-- Embeds the loop over the new table's fields (mysql.go lines 210-215):
a new field missing from the old table is added. -/
def fieldAdds (nf ofl : List Field) : List Field :=
  nf.filter (fun f => (posOf Field.FieldName ofl f.FieldName).isNone)

/-- The `change` record built at the top of the both-present branch of Diff
(mysql.go lines 157-161): only the name is set, everything else is the Go
zero value. -/
def emptyChange (n : String) : Table :=
  { Name := n, Engine := "", Version := "", RowFormat := "", Options := "",
    Comment := "", Collation := "", Fields := ⟨[], [], [], []⟩,
    Indexes := ⟨[], [], []⟩ }

/-- The change record assembled by the both-present branch of Diff (mysql.go
lines 172-215): the Go code appends the index sub-diffs and field sub-diffs
onto the sub-diff lists of the starting record. -/
def buildChange (start : Table) (nidx oidx : List Index) (nf ofl : List Field)
    (fdc : List Field × List Field) : Table :=
  { start with
    Indexes := { start.Indexes with
                 Drop := start.Indexes.Drop ++ indexDrops nidx oidx,
                 Add := start.Indexes.Add ++ indexAddsRepl nidx oidx ++
                        indexAddsNew nidx oidx },
    Fields := { start.Fields with
                Drop := start.Fields.Drop ++ fdc.1,
                Change := start.Fields.Change ++ fdc.2,
                Add := start.Fields.Add ++ fieldAdds nf ofl } }

/-- Embeds the body of the both-present branch of Diff for one new table
(mysql.go lines 156-219 up to the emptiness check): `pos` is the old table's
position (`oldtablespos[newdetail.Name]`).  The change record starts as
`emptyChange` or, when the table attributes differ, as the full new record
(mysql.go lines 157-165); the index and field sub-diffs are then appended.
`none` embeds a nil-pointer panic inside a `Field.Equal` call. -/
def tableChange (oldS newS : Snapshot) (nd : Table) (pos : Nat) : Option Table :=
  match fieldOldLoop (newS.fields nd.Name)
          (posOf Field.FieldName (newS.fields nd.Name))
          (oldS.fields (oldS.tables.getD pos default).Name) with
  | none => none
  | some fdc =>
    some (buildChange
      (if (oldS.tables.getD pos default).Equal nd then emptyChange nd.Name else nd)
      (newS.indexes nd.Name)
      (oldS.indexes (oldS.tables.getD pos default).Name)
      (newS.fields nd.Name)
      (oldS.fields (oldS.tables.getD pos default).Name)
      fdc)

/-- Embeds the both-present part of the loop over the new tables (mysql.go
lines 149-221): each new table also present in the old snapshot contributes
its change record unless that record is empty.  (The create side of the same
Go loop is embedded separately in `diffCore`; the two sides append to
different result lists, so each list's order is preserved.) -/
def changeLoop (oldS newS : Snapshot) (opos : String → Option Nat) :
    List Table → Option (List Table)
  | [] => some []
  | nd :: rest =>
    match opos nd.Name with
    | none => changeLoop oldS newS opos rest
    | some pos =>
      match tableChange oldS newS nd pos with
      | none => none
      | some change =>
        match changeLoop oldS newS opos rest with
        | none => none
        | some cs => some (if change.IsEmpty then cs else change :: cs)

/-- Embeds the pure comparison core of `Driver.Diff` (mysql.go
lines 135-223), applied to two already-materialised snapshots: old tables
missing from the new snapshot are dropped; new tables missing from the old
snapshot are created carrying their full field and index lists; tables
present in both contribute their non-empty change records.  `none` embeds a
nil-pointer panic inside a `Field.Equal` call (in which case the Go function
returns nothing at all). -/
def diffCore (oldS newS : Snapshot) : Option Result :=
  match changeLoop oldS newS (posOf Table.Name oldS.tables) newS.tables with
  | none => none
  | some cs =>
    some ⟨oldS.tables.filter
            (fun t => (posOf Table.Name newS.tables t.Name).isNone),
          newS.tables.filterMap (fun t =>
            if (posOf Table.Name oldS.tables t.Name).isNone then
              some { t with
                     Fields := { t.Fields with Create := newS.fields t.Name },
                     Indexes := { t.Indexes with Create := newS.indexes t.Name } }
            else none),
          cs⟩

/-! Definitions modelled from the spec's §4.2 rendering rules (for the
refinement claim about default-value rendering), to be compared with the
source's `sqldefault`. -/

/-- Spec wording: escape a value by doubling each backslash and
backslash-escaping each single quote. -/
def escapeSpec (s : String) : String :=
  (s.toList.map (fun c =>
    if c = '\\' then "\\\\"
    else if c = '\'' then "\\'"
    else String.singleton c)).foldl (fun a b => a ++ b) ""

/-- Spec wording: the string/text/enum/blob family of base types. -/
def quotedFamilySpec : List String :=
  ["varchar", "char", "blob", "text", "tinyblob", "tinytext",
   "mediumblob", "mediumtext", "longblob", "longtext", "enum"]

/-- Spec wording: the base type is the type string before any parenthesized
length/precision. -/
def baseTypeSpec (typ : String) : String :=
  String.mk (typ.toList.takeWhile (fun c => c != '('))

/-- The default-clause renderer as §4.2 of the spec words it: the value is
quoted and escaped exactly when the column's base type, compared
case-insensitively, belongs to the string/text/enum/blob family; otherwise
the default is a raw unquoted literal. -/
def sqldefaultSpec (typ v : String) : String :=
  if lowerStr (baseTypeSpec typ) ∈ quotedFamilySpec
  then " DEFAULT '" ++ escapeSpec v ++ "'"
  else " DEFAULT " ++ v

/-! Concrete inputs for the witness and counterexample theorems.  Each claim
has its own data. -/

def c1table : Table :=
  ⟨"t1", "InnoDB", "10", "Dynamic", "", "", "utf8_general_ci",
   ⟨[], [], [], []⟩, ⟨[], [], []⟩⟩

def c2told : Table :=
  ⟨"t2", "InnoDB", "10", "Dynamic", "old-options", "", "utf8_general_ci",
   ⟨[], [], [], []⟩, ⟨[], [], []⟩⟩

def c2tnew : Table := { c2told with Options := "ROW_FORMAT=DYNAMIC" }

def c2old : Snapshot := ⟨[c2told], fun _ => [], fun _ => []⟩

def c2new : Snapshot := ⟨[c2tnew], fun _ => [], fun _ => []⟩

def c3prim_old : Index := ⟨"t3", 0, "PRIMARY", ["a", "b"], "A", "BTREE", "", ""⟩

def c3prim_new : Index := ⟨"t3", 0, "PRIMARY", ["b", "a"], "A", "BTREE", "", ""⟩

def c3table : Table :=
  ⟨"t3", "InnoDB", "10", "Dynamic", "", "", "utf8_general_ci",
   ⟨[], [], [], []⟩, ⟨[], [], []⟩⟩

def c3old : Snapshot :=
  ⟨[c3table], fun _ => [], fun n => if n = "t3" then [c3prim_old] else []⟩

def c3new : Snapshot :=
  ⟨[c3table], fun _ => [], fun n => if n = "t3" then [c3prim_new] else []⟩

def c3chg : Table :=
  ⟨"t3", "", "", "", "", "", "", ⟨[], [], [], []⟩,
   ⟨[], [c3prim_new], [c3prim_old]⟩⟩

def c3res : Result := ⟨[], [], [c3chg]⟩

def c4idx_old : Index := ⟨"t4", 1, "k4", ["a"], "A", "BTREE", "", ""⟩

def c4idx_new : Index := ⟨"t4", 1, "k4", ["b"], "A", "BTREE", "", ""⟩

def c4fd : Field := ⟨"c", "int(11)", none, "NO", "", none, "", "", ""⟩

def c4fa : Field :=
  ⟨"d", "varchar(10)", some "utf8_general_ci", "YES", "", none, "", "", "c"⟩

def c4t : Table :=
  ⟨"t4", "", "", "", "", "", "", ⟨[], [c4fd], [], [c4fa]⟩,
   ⟨[], [c4idx_new], [c4idx_old]⟩⟩

def c4res : Result := ⟨[], [], [c4t]⟩

def c4out : List String :=
  ["ALTER TABLE `t4` DROP INDEX `k4`;",
   "ALTER TABLE `t4` DROP `c`;",
   "ALTER TABLE `t4` ADD `d` varchar(10) CHARACTER SET utf8 COLLATE utf8_general_ci NULL  AFTER `c`;",
   "ALTER TABLE `t4` ADD INDEX `k4` (`b`);"]

def c5told : Table :=
  ⟨"t5", "InnoDB", "10", "Dynamic", "", "", "utf8_general_ci",
   ⟨[], [], [], []⟩, ⟨[], [], []⟩⟩

def c5tnew : Table := { c5told with Engine := "MyISAM" }

def c5old : Snapshot := ⟨[c5told], fun _ => [], fun _ => []⟩

def c5new : Snapshot := ⟨[c5tnew], fun _ => [], fun _ => []⟩

def c5res : Result := ⟨[], [], [c5tnew]⟩

def c7f : Field := ⟨"id", "int(11)", none, "NO", "PRI", none, "", "", ""⟩

def c7i : Index := ⟨"t7", 0, "PRIMARY", ["id"], "A", "BTREE", "", ""⟩

def c7t : Table :=
  ⟨"t7", "InnoDB", "10", "Dynamic", "", "", "utf8_general_ci",
   ⟨[], [], [], []⟩, ⟨[], [], []⟩⟩

def c7s : Snapshot :=
  ⟨[c7t], fun n => if n = "t7" then [c7f] else [],
   fun n => if n = "t7" then [c7i] else []⟩

def c8a : Field :=
  ⟨"n", "int(11)", some "utf8_general_ci", "NO", "PRI", some "0", "e", "cm", "x"⟩

def c8b : Field :=
  ⟨"n", "int(11)", some "utf8_general_ci", "NO", "", some "0", "e", "cm", "y"⟩

def c9fid : Field := ⟨"id", "int(11)", none, "NO", "PRI", none, "", "", ""⟩

def c9fname : Field :=
  ⟨"name", "varchar(32)", some "utf8_general_ci", "YES", "", none, "", "", "id"⟩

def c9femail : Field :=
  ⟨"email", "varchar(64)", some "utf8_general_ci", "YES", "", none, "", "", "name"⟩

def c9t : Table :=
  ⟨"users", "InnoDB", "10", "Dynamic", "", "", "utf8_general_ci",
   ⟨[], [], [], []⟩, ⟨[], [], []⟩⟩

def c9old : Snapshot :=
  ⟨[c9t], fun n => if n = "users" then [c9fid, c9fname] else [], fun _ => []⟩

def c9new : Snapshot :=
  ⟨[c9t], fun n => if n = "users" then [c9fid, c9fname, c9femail] else [],
   fun _ => []⟩

def c9ch : Table :=
  ⟨"users", "", "", "", "", "", "", ⟨[], [], [], [c9femail]⟩, ⟨[], [], []⟩⟩

def c9res : Result := ⟨[], [], [c9ch]⟩

def c9out : List String :=
  ["ALTER TABLE `users` ADD `email` varchar(64) CHARACTER SET utf8 COLLATE utf8_general_ci NULL  AFTER `name`;"]

def c10f1 : Field := ⟨"a", "int", none, "NO", "", none, "", "", ""⟩

def c10f2 : Field := ⟨"b", "int", some "x", "NO", "", none, "", "", ""⟩

def c10g1 : Field := ⟨"a", "int", none, "NO", "", none, "", "", ""⟩

def c10g2 : Field := ⟨"a", "int", some "x", "NO", "", none, "", "", ""⟩

def c10g3 : Field := ⟨"a", "int", some "x", "NO", "", none, "", "", ""⟩

def c10g4 : Field := ⟨"a", "int", some "x", "NO", "", some "0", "", "", ""⟩

/-! Basic facts about `posOf`, the embedded name-to-position maps. -/

theorem posOf_spec {α : Type} {key : α → String} :
    ∀ {l : List α} {name : String} {i : Nat},
      posOf key l name = some i →
      ∃ hi : i < l.length, key (l.get ⟨i, hi⟩) = name := by
  intro l
  induction l with
  | nil => intro name i h; simp [posOf] at h
  | cons a rest ih =>
    intro name i h
    unfold posOf at h
    cases hr : posOf key rest name with
    | some j =>
      rw [hr] at h
      obtain ⟨hj, hk⟩ := ih hr
      obtain rfl : j + 1 = i := by simpa using h
      exact ⟨by simpa using Nat.succ_lt_succ hj, by simpa using hk⟩
    | none =>
      rw [hr] at h
      by_cases hk : key a = name
      · rw [if_pos hk] at h
        obtain rfl : 0 = i := by simpa using h
        exact ⟨by simp, hk⟩
      · rw [if_neg hk] at h
        simp at h

theorem posOf_of_mem {α : Type} {key : α → String} {a : α} :
    ∀ {l : List α}, a ∈ l → ∃ i, posOf key l (key a) = some i := by
  intro l
  induction l with
  | nil => intro h; simp at h
  | cons b rest ih =>
    intro h
    rcases List.mem_cons.mp h with rfl | hm
    · cases hr : posOf key rest (key a) with
      | some j => exact ⟨j + 1, by simp [posOf, hr]⟩
      | none => exact ⟨0, by simp [posOf, hr]⟩
    · obtain ⟨j, hj⟩ := ih hm
      exact ⟨j + 1, by simp [posOf, hj]⟩

theorem posOf_isSome_of_mem {α : Type} {key : α → String} {a : α} {l : List α}
    (h : a ∈ l) : (posOf key l (key a)).isSome := by
  obtain ⟨i, hi⟩ := @posOf_of_mem _ key _ _ h
  simp [hi]

theorem posOf_mem_of_some {α : Type} {key : α → String} {l : List α}
    {name : String} {i : Nat} (h : posOf key l name = some i) :
    name ∈ l.map key := by
  obtain ⟨hi, hk⟩ := posOf_spec h
  exact hk ▸ List.mem_map_of_mem key (l.get_mem _ _)

/-- Over a list whose keys are pairwise distinct, the position recorded for
the key of a member is the member itself. -/
theorem posOf_getD_nodup {α : Type} [Inhabited α] {key : α → String} :
    ∀ {l : List α} {a : α} {i : Nat},
      (l.map key).Nodup → a ∈ l → posOf key l (key a) = some i →
      l.getD i default = a := by
  intro l
  induction l with
  | nil => intro a i _ hm; simp at hm
  | cons b rest ih =>
    intro a i hnd hm h
    rw [List.map_cons, List.nodup_cons] at hnd
    rcases List.mem_cons.mp hm with rfl | hm
    · cases hr : posOf key rest (key a) with
      | some j =>
        exact absurd (posOf_mem_of_some hr) hnd.1
      | none =>
        unfold posOf at h
        rw [hr, if_pos rfl] at h
        obtain rfl : 0 = i := by simpa using h
        simp
    · obtain ⟨j, hj⟩ := @posOf_of_mem _ key _ _ hm
      unfold posOf at h
      rw [hj] at h
      obtain rfl : j + 1 = i := by simpa using h
      simpa using ih hnd.2 hm hj

theorem posOf_eq_none {α : Type} {key : α → String} {l : List α}
    {name : String} (h : ∀ a ∈ l, key a ≠ name) : posOf key l name = none := by
  induction l with
  | nil => simp [posOf]
  | cons b rest ih =>
    unfold posOf
    rw [ih (fun a ha => h a (List.mem_cons_of_mem b ha))]
    simp [h b (List.mem_cons_self b rest)]

/-! Reflexivity of the three embedded equality methods. -/

theorem tableEqual_refl (t : Table) : t.Equal t = true := by
  simp [Table.Equal]

theorem indexEqual_refl (i : Index) : i.Equal i = true := by
  simp [Index.Equal]

theorem derefEq_self (a : Option String) : derefEq a a = some true := by
  cases a <;> simp [derefEq]

theorem derefEq_eq_some_true {a b : Option String} :
    derefEq a b = some true ↔ a = b := by
  cases a <;> cases b <;> simp [derefEq]

theorem fieldEqual_refl (f : Field) : f.Equal f = some true := by
  simp [Field.Equal, derefEq_self]

/-! Structure of the change records produced by `changeLoop`. -/

theorem buildChange_Name (start : Table) (nidx oidx : List Index)
    (nf ofl : List Field) (fdc : List Field × List Field) :
    (buildChange start nidx oidx nf ofl fdc).Name = start.Name := rfl

theorem buildChange_Indexes_Drop (start : Table) (nidx oidx : List Index)
    (nf ofl : List Field) (fdc : List Field × List Field) :
    (buildChange start nidx oidx nf ofl fdc).Indexes.Drop =
      start.Indexes.Drop ++ indexDrops nidx oidx := rfl

theorem buildChange_Indexes_Add (start : Table) (nidx oidx : List Index)
    (nf ofl : List Field) (fdc : List Field × List Field) :
    (buildChange start nidx oidx nf ofl fdc).Indexes.Add =
      start.Indexes.Add ++ indexAddsRepl nidx oidx ++ indexAddsNew nidx oidx := rfl

theorem buildChange_Fields_Add (start : Table) (nidx oidx : List Index)
    (nf ofl : List Field) (fdc : List Field × List Field) :
    (buildChange start nidx oidx nf ofl fdc).Fields.Add =
      start.Fields.Add ++ fieldAdds nf ofl := rfl

/-- A table record with a non-empty index-drop list is not empty. -/
theorem Table.IsEmpty_false_of_index_drop {t : Table} {i : Index}
    (h : i ∈ t.Indexes.Drop) : t.IsEmpty = false := by
  have hne : t.Indexes.Drop ≠ [] := List.ne_nil_of_mem h
  simp [Table.IsEmpty, ResultIndexes.IsEmpty, hne]

theorem changeLoop_cons_none {oldS newS : Snapshot} {opos : String → Option Nat}
    {nd : Table} {rest : List Table} (hpos : opos nd.Name = none) :
    changeLoop oldS newS opos (nd :: rest) = changeLoop oldS newS opos rest := by
  conv_lhs => unfold changeLoop
  rw [hpos]

theorem changeLoop_cons_some {oldS newS : Snapshot} {opos : String → Option Nat}
    {nd : Table} {rest : List Table} {pos : Nat}
    (hpos : opos nd.Name = some pos) :
    changeLoop oldS newS opos (nd :: rest) =
      match tableChange oldS newS nd pos with
      | none => none
      | some change =>
        match changeLoop oldS newS opos rest with
        | none => none
        | some cs => some (if change.IsEmpty then cs else change :: cs) := by
  conv_lhs => unfold changeLoop
  rw [hpos]

/-- Forward direction: a new table present in the old snapshot whose change
record is non-empty contributes that record to the result of `changeLoop`. -/
theorem changeLoop_mem {oldS newS : Snapshot} {opos : String → Option Nat} :
    ∀ {l cs : List Table} {nd : Table} {pos : Nat},
      changeLoop oldS newS opos l = some cs → nd ∈ l → opos nd.Name = some pos →
      ∃ ch, tableChange oldS newS nd pos = some ch ∧
            (ch.IsEmpty = false → ch ∈ cs) := by
  intro l
  induction l with
  | nil => intro cs nd pos _ hm; simp at hm
  | cons hd rest ih =>
    intro cs nd pos h hm hpos
    rcases List.mem_cons.mp hm with rfl | hm
    · rw [changeLoop_cons_some hpos] at h
      cases htc : tableChange oldS newS nd pos with
      | none => rw [htc] at h; simp at h
      | some ch =>
        rw [htc] at h
        cases hcl : changeLoop oldS newS opos rest with
        | none => rw [hcl] at h; simp at h
        | some cs' =>
          rw [hcl] at h
          obtain rfl : (if ch.IsEmpty then cs' else ch :: cs') = cs := by
            simpa using h
          refine ⟨ch, rfl, fun hne => ?_⟩
          simp [hne]
    · cases hop : opos hd.Name with
      | none =>
        rw [changeLoop_cons_none hop] at h
        exact ih h hm hpos
      | some p =>
        rw [changeLoop_cons_some hop] at h
        cases htc : tableChange oldS newS hd p with
        | none => rw [htc] at h; simp at h
        | some ch' =>
          rw [htc] at h
          cases hcl : changeLoop oldS newS opos rest with
          | none => rw [hcl] at h; simp at h
          | some cs' =>
            rw [hcl] at h
            obtain rfl : (if ch'.IsEmpty then cs' else ch' :: cs') = cs := by
              simpa using h
            obtain ⟨ch, hch, hmem⟩ := ih hcl hm hpos
            refine ⟨ch, hch, fun hne => ?_⟩
            by_cases he : ch'.IsEmpty <;> simp [he, hmem hne]

/-- Backward direction: every record in the result of `changeLoop` is the
non-empty change record of some new table present in the old snapshot. -/
theorem changeLoop_mem_rev {oldS newS : Snapshot} {opos : String → Option Nat} :
    ∀ {l cs : List Table} {ch : Table},
      changeLoop oldS newS opos l = some cs → ch ∈ cs →
      ∃ nd pos, nd ∈ l ∧ opos nd.Name = some pos ∧
                tableChange oldS newS nd pos = some ch ∧ ch.IsEmpty = false := by
  intro l
  induction l with
  | nil =>
    intro cs ch h hm
    simp [changeLoop] at h
    subst h
    simp at hm
  | cons hd rest ih =>
    intro cs ch h hm
    cases hop : opos hd.Name with
    | none =>
      rw [changeLoop_cons_none hop] at h
      obtain ⟨nd, pos, h1, h2, h3, h4⟩ := ih h hm
      exact ⟨nd, pos, List.mem_cons_of_mem hd h1, h2, h3, h4⟩
    | some p =>
      rw [changeLoop_cons_some hop] at h
      cases htc : tableChange oldS newS hd p with
      | none => rw [htc] at h; simp at h
      | some ch' =>
        rw [htc] at h
        cases hcl : changeLoop oldS newS opos rest with
        | none => rw [hcl] at h; simp at h
        | some cs' =>
          rw [hcl] at h
          obtain rfl : (if ch'.IsEmpty then cs' else ch' :: cs') = cs := by
            simpa using h
          by_cases he : ch'.IsEmpty
          · rw [if_pos he] at hm
            obtain ⟨nd, pos, h1, h2, h3, h4⟩ := ih hcl hm
            exact ⟨nd, pos, List.mem_cons_of_mem hd h1, h2, h3, h4⟩
          · rw [if_neg he] at hm
            rcases List.mem_cons.mp hm with rfl | hm'
            · exact ⟨hd, p, List.mem_cons_self hd rest, hop, htc, by
                simpa using he⟩
            · obtain ⟨nd, pos, h1, h2, h3, h4⟩ := ih hcl hm'
              exact ⟨nd, pos, List.mem_cons_of_mem hd h1, h2, h3, h4⟩

/-- The change list of a successful `diffCore` run is the result of
`changeLoop` over the new snapshot's tables. -/
theorem diffCore_change {oldS newS : Snapshot} {res : Result}
    (h : diffCore oldS newS = some res) :
    changeLoop oldS newS (posOf Table.Name oldS.tables) newS.tables =
      some res.Change := by
  unfold diffCore at h
  cases hcl : changeLoop oldS newS (posOf Table.Name oldS.tables) newS.tables with
  | none => rw [hcl] at h; simp at h
  | some cs =>
    rw [hcl] at h
    obtain rfl : (⟨_, _, cs⟩ : Result) = res := by simpa using h
    rfl

/-! Helper lemmas for the reflexivity and per-claim proofs. -/

theorem fieldOldLoop_cons_some {nf : List Field} {npos : String → Option Nat}
    {of : Field} {rest : List Field} {p : Nat} (hp : npos of.FieldName = some p) :
    fieldOldLoop nf npos (of :: rest) =
      match Field.Equal of (nf.getD p default) with
      | none => none
      | some true => fieldOldLoop nf npos rest
      | some false =>
        match fieldOldLoop nf npos rest with
        | none => none
        | some (d, c) => some (d, nf.getD p default :: c) := by
  conv_lhs => unfold fieldOldLoop
  rw [hp]

theorem fieldOldLoop_refl {nf : List Field}
    (h : (nf.map Field.FieldName).Nodup) :
    ∀ {l : List Field}, (∀ x ∈ l, x ∈ nf) →
      fieldOldLoop nf (posOf Field.FieldName nf) l = some ([], []) := by
  intro l
  induction l with
  | nil => intro _; rfl
  | cons of rest ih =>
    intro hsub
    have hm : of ∈ nf := hsub of (List.mem_cons_self of rest)
    obtain ⟨p, hp⟩ := @posOf_of_mem _ Field.FieldName _ _ hm
    have hget : nf.getD p default = of := posOf_getD_nodup h hm hp
    rw [fieldOldLoop_cons_some hp, hget, fieldEqual_refl]
    exact ih (fun x hx => hsub x (List.mem_cons_of_mem of hx))

theorem indexDrops_refl {nidx : List Index}
    (h : (nidx.map Index.KeyName).Nodup) : indexDrops nidx nidx = [] := by
  rw [indexDrops, List.filter_eq_nil_iff]
  intro oi hm
  obtain ⟨q, hq⟩ := @posOf_of_mem _ Index.KeyName _ _ hm
  have hg : nidx.getD q default = oi := posOf_getD_nodup h hm hq
  simp only [hq, hg, indexEqual_refl]
  simp

theorem indexAddsRepl_refl {nidx : List Index}
    (h : (nidx.map Index.KeyName).Nodup) : indexAddsRepl nidx nidx = [] := by
  rw [indexAddsRepl, List.filterMap_eq_nil_iff]
  intro oi hm
  obtain ⟨q, hq⟩ := @posOf_of_mem _ Index.KeyName _ _ hm
  have hg : nidx.getD q default = oi := posOf_getD_nodup h hm hq
  simp only [hq, hg, indexEqual_refl]
  simp

theorem indexAddsNew_refl {nidx : List Index} : indexAddsNew nidx nidx = [] := by
  rw [indexAddsNew, List.filter_eq_nil_iff]
  intro ni hm
  obtain ⟨q, hq⟩ := @posOf_of_mem _ Index.KeyName _ _ hm
  simp [hq]

theorem fieldAdds_refl {nf : List Field} : fieldAdds nf nf = [] := by
  rw [fieldAdds, List.filter_eq_nil_iff]
  intro f hm
  obtain ⟨q, hq⟩ := @posOf_of_mem _ Field.FieldName _ _ hm
  simp [hq]

theorem tableChange_refl {S : Snapshot}
    (h1 : (S.tables.map Table.Name).Nodup)
    (h2 : ∀ n, ((S.fields n).map Field.FieldName).Nodup)
    {nd : Table} {pos : Nat} (hm : nd ∈ S.tables)
    (hpos : posOf Table.Name S.tables nd.Name = some pos) :
    tableChange S S nd pos =
      some (buildChange (emptyChange nd.Name) (S.indexes nd.Name)
        (S.indexes nd.Name) (S.fields nd.Name) (S.fields nd.Name) ([], [])) := by
  have hget : S.tables.getD pos default = nd := posOf_getD_nodup h1 hm hpos
  unfold tableChange
  rw [hget, tableEqual_refl, fieldOldLoop_refl (h2 nd.Name) (fun x hx => hx)]
  simp

theorem buildChange_refl_IsEmpty {S : Snapshot} {n : String}
    (h3 : ((S.indexes n).map Index.KeyName).Nodup) :
    (buildChange (emptyChange n) (S.indexes n) (S.indexes n)
      (S.fields n) (S.fields n) ([], [])).IsEmpty = true := by
  simp [buildChange, emptyChange, Table.IsEmpty, ResultFields.IsEmpty,
        ResultIndexes.IsEmpty, indexDrops_refl h3, indexAddsRepl_refl h3,
        indexAddsNew_refl, fieldAdds_refl]

theorem changeLoop_refl {S : Snapshot}
    (h1 : (S.tables.map Table.Name).Nodup)
    (h2 : ∀ n, ((S.fields n).map Field.FieldName).Nodup)
    (h3 : ∀ n, ((S.indexes n).map Index.KeyName).Nodup) :
    ∀ {l : List Table}, (∀ x ∈ l, x ∈ S.tables) →
      changeLoop S S (posOf Table.Name S.tables) l = some [] := by
  intro l
  induction l with
  | nil => intro _; rfl
  | cons nd rest ih =>
    intro hsub
    have hm : nd ∈ S.tables := hsub nd (List.mem_cons_self nd rest)
    obtain ⟨pos, hpos⟩ := @posOf_of_mem _ Table.Name _ _ hm
    rw [changeLoop_cons_some hpos, tableChange_refl h1 h2 hm hpos,
        ih (fun x hx => hsub x (List.mem_cons_of_mem nd hx))]
    simp [buildChange_refl_IsEmpty (h3 nd.Name)]

theorem takeWhile_eq_of_not_contains {l : List Char}
    (h : l.contains '(' = false) : l.takeWhile (fun c => c != '(') = l := by
  rw [List.takeWhile_eq_self_iff]
  intro x hx
  simp only [List.contains_eq_any_beq, List.any_eq_false, beq_iff_eq] at h
  simpa [bne_iff_ne] using fun he : x = '(' => h x hx he.symm

theorem escape_eq_escapeSpec (s : String) : escape s = escapeSpec s := by
  unfold escape escapeSpec
  rw [List.foldl_map]

/-- The full characterization of the embedded `Field.Equal`: it returns
`some true` exactly when name, type, collation, nullability, default, extra
and comment all agree; the `Key` and `After` attributes play no role. -/
theorem Field.Equal_eq_some_true_iff (f f2 : Field) :
    Field.Equal f f2 = some true ↔
      (f.FieldName = f2.FieldName ∧ f.FieldType = f2.FieldType ∧
       f.Collation = f2.Collation ∧ f.Null = f2.Null ∧ f.Default = f2.Default ∧
       f.Extra = f2.Extra ∧ f.Comment = f2.Comment) := by
  obtain ⟨fn, ft, fc, fnu, fk, fd, fe, fcm, fa⟩ := f
  obtain ⟨gn, gt, gc, gnu, gk, gd, ge, gcm, ga⟩ := f2
  cases fc <;> cases gc <;> cases fd <;> cases gd <;>
    simp only [Field.Equal, derefEq, bne_iff_ne, ite_not, Bool.not_eq_true] <;>
    split_ifs <;> simp_all

/-! The ten claims. -/

/-- C1 (counterexample): a Delta whose CreateTables table has an empty
Create field list does not make Generate fail — Generate returns a nil
error together with a CREATE TABLE statement with an empty column list,
refuting the claimed DataIntegrityError and the claimed absence of output. -/
theorem C1_counterexample :
    c1table.Fields.Create = [] ∧
    Generate ⟨[], [c1table], []⟩ =
      Except.ok
        ["CREATE TABLE IF NOT EXISTS `t1` () ENGINE = InnoDB DEFAULT CHARSET = utf8;"] := by
  decide

/-- C1 (amended): Generate is total and never returns an error: for every
Delta — including one whose CreateTables entry has an empty Create field
list — it returns an ok result; no error path exists in the source. -/
theorem C1_generate_never_errors (r : Result) : ∃ l, Generate r = Except.ok l := by
  unfold Generate
  split
  · exact ⟨[], rfl⟩
  · exact ⟨_, rfl⟩

/-- C2 (counterexample): two table records that differ only in their options
string compare unequal under `Table.Equal`, and the Comparator therefore
emits a ChangeTables entry (the full new record) for them — refuting the
claim that the options string is excluded from the comparison. -/
theorem C2_counterexample :
    c2told = { c2tnew with Options := c2told.Options } ∧
    Table.Equal c2told c2tnew = false ∧
    diffCore c2old c2new = some ⟨[], [], [c2tnew]⟩ := by
  refine ⟨by decide, by decide, by decide⟩

/-- C2 (amended): the attribute-level comparison deciding whether a table
change is recorded considers exactly name, engine, version, row-format,
options, comment and collation — the options string (and the version) is
included, so two tables differing only in options are recorded as changed. -/
theorem C2_table_compare_attributes (t t2 : Table) :
    Table.Equal t t2 = true ↔
      (t.Name = t2.Name ∧ t.Engine = t2.Engine ∧ t.Version = t2.Version ∧
       t.RowFormat = t2.RowFormat ∧ t.Options = t2.Options ∧
       t.Comment = t2.Comment ∧ t.Collation = t2.Collation) := by
  simp [Table.Equal, and_assoc]

/-- C3: for every pair of snapshots and every index key name present in both
snapshots for a table present in both, if the two index records are unequal
(`Index.Equal`, which includes the order of the column-name list), the
resulting Delta contains a ChangeTables entry for that table holding the old
record in Indexes.Drop and the new record in Indexes.Add.  The key name
`PRIMARY` is not special-cased anywhere in Diff, so this covers it; the
Delta data model has no in-place index-alteration category at all
(ResultIndexes has only Create, Add and Drop). -/
theorem C3_index_replace {oldS newS : Snapshot} {res : Result} {nd : Table}
    {pos q : Nat} {oi : Index}
    (hres : diffCore oldS newS = some res)
    (hnd : nd ∈ newS.tables)
    (hpos : posOf Table.Name oldS.tables nd.Name = some pos)
    (hoi : oi ∈ oldS.indexes (oldS.tables.getD pos default).Name)
    (hq : posOf Index.KeyName (newS.indexes nd.Name) oi.KeyName = some q)
    (hne : oi.Equal ((newS.indexes nd.Name).getD q default) = false) :
    ∃ ch ∈ res.Change, ch.Name = nd.Name ∧ oi ∈ ch.Indexes.Drop ∧
      ((newS.indexes nd.Name).getD q default) ∈ ch.Indexes.Add := by
  obtain ⟨ch, htc, hmem⟩ := changeLoop_mem (diffCore_change hres) hnd hpos
  unfold tableChange at htc
  cases hfl : fieldOldLoop (newS.fields nd.Name)
      (posOf Field.FieldName (newS.fields nd.Name))
      (oldS.fields (oldS.tables.getD pos default).Name) with
  | none => rw [hfl] at htc; simp at htc
  | some fdc =>
    rw [hfl] at htc
    have hch : ch = buildChange
        (if (oldS.tables.getD pos default).Equal nd then emptyChange nd.Name else nd)
        (newS.indexes nd.Name) (oldS.indexes (oldS.tables.getD pos default).Name)
        (newS.fields nd.Name) (oldS.fields (oldS.tables.getD pos default).Name)
        fdc := by
      simpa using htc.symm
    have hdm : oi ∈ indexDrops (newS.indexes nd.Name)
        (oldS.indexes (oldS.tables.getD pos default).Name) := by
      refine List.mem_filter.mpr ⟨hoi, ?_⟩
      simp only [hq, hne]
      simp
    have ham : ((newS.indexes nd.Name).getD q default) ∈
        indexAddsRepl (newS.indexes nd.Name)
          (oldS.indexes (oldS.tables.getD pos default).Name) := by
      refine List.mem_filterMap.mpr ⟨oi, hoi, ?_⟩
      simp only [hq, hne]
      simp
    have hname : ch.Name = nd.Name := by
      rw [hch, buildChange_Name]
      split <;> rfl
    have hdrop : oi ∈ ch.Indexes.Drop := by
      rw [hch, buildChange_Indexes_Drop]
      exact List.mem_append_right _ hdm
    have hadd : ((newS.indexes nd.Name).getD q default) ∈ ch.Indexes.Add := by
      rw [hch, buildChange_Indexes_Add]
      exact List.mem_append_left _ (List.mem_append_right _ ham)
    exact ⟨ch, hmem (Table.IsEmpty_false_of_index_drop hdrop), hname, hdrop, hadd⟩

/-- C3 (witness): changing only the column order of the reserved PRIMARY key
puts the old record in Indexes.Drop and the new record in Indexes.Add. -/
theorem C3_index_replace_witness :
    ∃ ch ∈ c3res.Change, ch.Name = c3table.Name ∧ c3prim_old ∈ ch.Indexes.Drop ∧
      ((c3new.indexes c3table.Name).getD 0 default) ∈ ch.Indexes.Add :=
  @C3_index_replace c3old c3new c3res c3table 0 0 c3prim_old (by decide)
    (by decide) (by decide) (by decide) (by decide) (by decide)

/-- C4: in the statement sequence returned by Generate, each changed table's
statements form one contiguous block in which the index-drop statements come
(as a block) before the column-drop statements, and the column-add
statements come before the index-add statements; hence every index-drop for
that table precedes every column-drop for it, and every column-add precedes
every index-add. -/
theorem C4_generate_order {res : Result} {out : List String} {t : Table}
    (h : Generate res = Except.ok out) (ht : t ∈ res.Change) :
    ∃ pre post,
      out = pre ++
        (t.Indexes.Drop.map dropIndexStmt ++
         t.Fields.Drop.map (dropFieldStmt t.Name) ++
         t.Fields.Add.map (addFieldStmt t.Name) ++
         t.Fields.Change.map (changeFieldStmt t.Name) ++
         t.Indexes.Add.map addIndexStmt) ++ post := by
  unfold Generate at h
  by_cases he : res.IsEmpty = true
  · rw [if_pos he] at h
    have hc : res.Change = [] := by
      simp only [Result.IsEmpty, Bool.and_eq_true, List.isEmpty_iff] at he
      exact he.2
    rw [hc] at ht
    simp at ht
  · rw [if_neg he] at h
    have hout : out = res.Drop.map dropTableStmt ++ res.Create.map createTableStmt ++
        (res.Change.map changeStmts).flatten := by
      injection h with h'
      exact h'.symm
    obtain ⟨l1, l2, hsplit⟩ := List.append_of_mem ht
    refine ⟨res.Drop.map dropTableStmt ++ res.Create.map createTableStmt ++
            (l1.map changeStmts).flatten ++ alterTableStmts t,
            (l2.map changeStmts).flatten, ?_⟩
    rw [hout, hsplit]
    simp [changeStmts, List.map_append, List.flatten_append, List.append_assoc]

/-- C4 (witness): the generated block for a concrete changed table. -/
theorem C4_generate_order_witness :
    ∃ pre post,
      c4out = pre ++
        (c4t.Indexes.Drop.map dropIndexStmt ++
         c4t.Fields.Drop.map (dropFieldStmt c4t.Name) ++
         c4t.Fields.Add.map (addFieldStmt c4t.Name) ++
         c4t.Fields.Change.map (changeFieldStmt c4t.Name) ++
         c4t.Indexes.Add.map addIndexStmt) ++ post :=
  @C4_generate_order c4res c4out c4t (by decide) (by decide)

/-- C5: the Comparator never emits an empty ChangeTables entry: every entry
of a successful diff's change list satisfies `Table.IsEmpty = false`, i.e.
it has at least one non-empty attribute (an attribute change was recorded)
or at least one non-empty field or index sub-diff list. -/
theorem C5_no_empty_change_entry {oldS newS : Snapshot} {res : Result}
    (h : diffCore oldS newS = some res) :
    ∀ ch ∈ res.Change, ch.IsEmpty = false := by
  intro ch hch
  obtain ⟨_, _, _, _, _, h4⟩ := changeLoop_mem_rev (diffCore_change h) hch
  exact h4

/-- C5 (witness): the single change entry of a concrete diff is non-empty. -/
theorem C5_no_empty_change_entry_witness : c5tnew.IsEmpty = false :=
  @C5_no_empty_change_entry c5old c5new c5res (by decide) c5tnew (by decide)

/-- C6: the source's default-clause renderer agrees with the spec's
description for every column with a non-absent default: the value is quoted
and escaped (backslash doubled, single quote backslash-escaped) exactly when
the base type — the type string before any parenthesized part, compared
case-insensitively — is in the string/text/enum/blob family, and is emitted
as a raw unquoted literal otherwise. -/
theorem C6_default_quoting (typ v : String) :
    sqldefault typ (some v) = sqldefaultSpec typ v := by
  simp only [sqldefault, sqldefaultSpec, baseTypeSpec, escape_eq_escapeSpec]
  by_cases h : typ.toList.contains '(' = true
  · rw [if_pos h, quotedFamilySpec]
  · rw [if_neg h]
    simp only [takeWhile_eq_of_not_contains (Bool.eq_false_iff.mpr h),
               quotedFamilySpec]
    rfl

/-- C7: reflexivity of the Comparator — diffing any snapshot against itself
yields the empty Delta.  The snapshot is assumed well-formed in the sense
the data model requires (§3: identity within a table is by name, so names
are unique; likewise the table list of one database has distinct names). -/
theorem C7_diff_reflexive (S : Snapshot)
    (h1 : (S.tables.map Table.Name).Nodup)
    (h2 : ∀ n, ((S.fields n).map Field.FieldName).Nodup)
    (h3 : ∀ n, ((S.indexes n).map Index.KeyName).Nodup) :
    diffCore S S = some ⟨[], [], []⟩ := by
  have hdrop : S.tables.filter
      (fun t => (posOf Table.Name S.tables t.Name).isNone) = [] := by
    rw [List.filter_eq_nil_iff]
    intro t ht
    obtain ⟨i, hi⟩ := @posOf_of_mem _ Table.Name _ _ ht
    simp [hi]
  have hcreate : S.tables.filterMap (fun t =>
      if (posOf Table.Name S.tables t.Name).isNone then
        some { t with Fields := { t.Fields with Create := S.fields t.Name },
                      Indexes := { t.Indexes with Create := S.indexes t.Name } }
      else none) = [] := by
    rw [List.filterMap_eq_nil_iff]
    intro t ht
    obtain ⟨i, hi⟩ := @posOf_of_mem _ Table.Name _ _ ht
    simp [hi]
  unfold diffCore
  rw [changeLoop_refl h1 h2 h3 (fun x hx => hx)]
  simp [hdrop, hcreate]
  intro t ht
  obtain ⟨i, hi⟩ := @posOf_of_mem _ Table.Name _ _ ht
  simp [hi]

/-- C7 (witness): a concrete one-table snapshot with a field and an index
diffs against itself to the empty Delta. -/
theorem C7_diff_reflexive_witness : diffCore c7s c7s = some ⟨[], [], []⟩ :=
  C7_diff_reflexive c7s (by decide)
    (fun n => by by_cases h : n = "t7" <;> simp [c7s, h])
    (fun n => by by_cases h : n = "t7" <;> simp [c7s, h])

/-- C8: at the call site that decides Change entries the two fields always
have the same name (the new field is looked up by the old field's name), and
under that hypothesis `Field.Equal` returns true exactly when type,
collation, nullability, default, extra and comment agree — the key-role flag
(`Key`) is not examined at all, so replacing it never affects the
comparison, and two fields differing only in the key-role flag compare equal
and produce no Change entry. -/
theorem C8_field_equality_attributes (f f2 : Field)
    (hn : f.FieldName = f2.FieldName) :
    (Field.Equal f f2 = some true ↔
      (f.FieldType = f2.FieldType ∧ f.Collation = f2.Collation ∧
       f.Null = f2.Null ∧ f.Default = f2.Default ∧ f.Extra = f2.Extra ∧
       f.Comment = f2.Comment)) ∧
    (∀ k, Field.Equal f { f2 with Key := k } = Field.Equal f f2) := by
  constructor
  · rw [Field.Equal_eq_some_true_iff]
    simp [hn]
  · intro k
    rfl

/-- C8 (witness): two concrete fields differing only in the key-role flag
compare equal, and rewriting the flag never changes the comparison. -/
theorem C8_field_equality_attributes_witness :
    Field.Equal c8a c8b = some true ∧
    (∀ k, Field.Equal c8a { c8b with Key := k } = Field.Equal c8a c8b) :=
  ⟨(C8_field_equality_attributes c8a c8b rfl).1.mpr (by decide),
   (C8_field_equality_attributes c8a c8b rfl).2⟩

/-- C9: every field in a change entry's Add list is a field record of the
new snapshot for that table — so its After attribute is the predecessor
name the new snapshot recorded; the generated ADD statement for it appears
in Generate's output and carries an AFTER clause naming that predecessor,
omitted exactly when the predecessor name is empty.  The snapshot tables are
assumed to carry empty sub-diff lists, as the acquisition code always
produces them. -/
theorem C9_field_add_predecessor {oldS newS : Snapshot} {res : Result}
    {ch : Table} {f : Field}
    (hwf : ∀ t ∈ newS.tables, t.Fields = ⟨[], [], [], []⟩ ∧ t.Indexes = ⟨[], [], []⟩)
    (hres : diffCore oldS newS = some res)
    (hch : ch ∈ res.Change) (hf : f ∈ ch.Fields.Add) :
    f ∈ newS.fields ch.Name ∧
    (∀ out, Generate res = Except.ok out → addFieldStmt ch.Name f ∈ out) ∧
    addFieldStmt ch.Name f =
      "ALTER TABLE `" ++ ch.Name ++ "` ADD `" ++ f.FieldName ++ "` " ++
      f.FieldType ++ sqlcol f.Collation ++ sqlnull f.Null ++
      sqldefault f.FieldType f.Default ++ sqlextra f.Extra ++
      sqlcomment f.Comment ++
      (if f.After = "" then "" else " AFTER `" ++ f.After ++ "`") ++ ";" := by
  obtain ⟨nd, pos, hnd, hpos, htc, hne⟩ := changeLoop_mem_rev (diffCore_change hres) hch
  unfold tableChange at htc
  cases hfl : fieldOldLoop (newS.fields nd.Name)
      (posOf Field.FieldName (newS.fields nd.Name))
      (oldS.fields (oldS.tables.getD pos default).Name) with
  | none => rw [hfl] at htc; simp at htc
  | some fdc =>
    rw [hfl] at htc
    have hchb : ch = buildChange
        (if (oldS.tables.getD pos default).Equal nd then emptyChange nd.Name else nd)
        (newS.indexes nd.Name) (oldS.indexes (oldS.tables.getD pos default).Name)
        (newS.fields nd.Name) (oldS.fields (oldS.tables.getD pos default).Name)
        fdc := by
      simpa using htc.symm
    have hstart : (if (oldS.tables.getD pos default).Equal nd then
        emptyChange nd.Name else nd).Fields.Add = [] := by
      split
      · rfl
      · exact congrArg ResultFields.Add (hwf nd hnd).1
    have hname : ch.Name = nd.Name := by
      rw [hchb, buildChange_Name]
      split <;> rfl
    have hfa : f ∈ fieldAdds (newS.fields nd.Name)
        (oldS.fields (oldS.tables.getD pos default).Name) := by
      rw [hchb, buildChange_Fields_Add, hstart] at hf
      simpa using hf
    have hmemnf : f ∈ newS.fields nd.Name := (List.mem_filter.mp hfa).1
    refine ⟨by rw [hname]; exact hmemnf, ?_, rfl⟩
    intro out hout
    unfold Generate at hout
    by_cases he : res.IsEmpty = true
    · rw [if_pos he] at hout
      have hc : res.Change = [] := by
        simp only [Result.IsEmpty, Bool.and_eq_true, List.isEmpty_iff] at he
        exact he.2
      rw [hc] at hch
      simp at hch
    · rw [if_neg he] at hout
      have hout' : out = res.Drop.map dropTableStmt ++
          res.Create.map createTableStmt ++
          (res.Change.map changeStmts).flatten := by
        injection hout with h'
        exact h'.symm
      rw [hout']
      refine List.mem_append_right _ ?_
      rw [List.mem_flatten]
      refine ⟨changeStmts ch, List.mem_map_of_mem changeStmts hch, ?_⟩
      unfold changeStmts
      have hin : addFieldStmt ch.Name f ∈ ch.Fields.Add.map (addFieldStmt ch.Name) :=
        List.mem_map_of_mem _ hf
      exact List.mem_append_left _ (List.mem_append_left _ (List.mem_append_right _ hin))

/-- C9 (witness): the spec's Scenario A — `email` added after `name` — lands
in the Add list carrying predecessor `name`, and its ADD statement ends in
an AFTER clause naming `name`. -/
theorem C9_field_add_predecessor_witness :
    c9femail ∈ c9new.fields c9ch.Name ∧
    addFieldStmt c9ch.Name c9femail ∈ c9out ∧
    addFieldStmt c9ch.Name c9femail =
      "ALTER TABLE `" ++ c9ch.Name ++ "` ADD `" ++ c9femail.FieldName ++ "` " ++
      c9femail.FieldType ++ sqlcol c9femail.Collation ++ sqlnull c9femail.Null ++
      sqldefault c9femail.FieldType c9femail.Default ++ sqlextra c9femail.Extra ++
      sqlcomment c9femail.Comment ++
      (if c9femail.After = "" then "" else " AFTER `" ++ c9femail.After ++ "`") ++ ";" :=
  ⟨(@C9_field_add_predecessor c9old c9new c9res c9ch c9femail (by decide)
      (by decide) (by decide) (by decide)).1,
   (@C9_field_add_predecessor c9old c9new c9res c9ch c9femail (by decide)
      (by decide) (by decide) (by decide)).2.1 c9out (by decide),
   (@C9_field_add_predecessor c9old c9new c9res c9ch c9femail (by decide)
      (by decide) (by decide) (by decide)).2.2⟩

/-- C10 (counterexample): a pair of fields with exactly one absent collation
for which `Field.Equal` does not panic: the names differ, the comparison
short-circuits and returns false — refuting the claim that every such pair
panics. -/
theorem C10_counterexample :
    c10f1.Collation.isNone ≠ c10f2.Collation.isNone ∧
    Field.Equal c10f1 c10f2 = some false := by
  decide

/-- C10 (amended): `Field.Equal` dereferences a nil pointer (embedded as the
`none` result) exactly as far as Go's short-circuit evaluation reaches it:
when the names and types agree, a presence mismatch of the optional
collation panics; and when additionally the collations agree and the
nullability agrees, a presence mismatch of the optional default panics. -/
theorem C10_field_equal_nil_panic (f f2 : Field) (h1 : f.FieldName = f2.FieldName)
    (h2 : f.FieldType = f2.FieldType) :
    (f.Collation.isNone ≠ f2.Collation.isNone → Field.Equal f f2 = none) ∧
    (f.Collation = f2.Collation → f.Null = f2.Null →
      f.Default.isNone ≠ f2.Default.isNone → Field.Equal f f2 = none) := by
  constructor
  · intro hmix
    unfold Field.Equal
    rw [if_neg (by simp [h1]), if_neg (by simp [h2])]
    cases hfc : f.Collation <;> cases hfc2 : f2.Collation <;>
      simp [hfc, hfc2, derefEq] at hmix ⊢
  · intro hcol hnull hmix
    unfold Field.Equal
    rw [if_neg (by simp [h1]), if_neg (by simp [h2]), hcol, derefEq_self]
    cases hfd : f.Default <;> cases hfd2 : f2.Default <;>
      simp [hfd, hfd2, derefEq, hnull] at hmix ⊢

/-- C10 (witness): both panic situations at concrete fields — a collation
presence mismatch and a default presence mismatch with everything earlier
equal. -/
theorem C10_field_equal_nil_panic_witness :
    Field.Equal c10g1 c10g2 = none ∧ Field.Equal c10g3 c10g4 = none :=
  ⟨(C10_field_equal_nil_panic c10g1 c10g2 rfl rfl).1 (by decide),
   (C10_field_equal_nil_panic c10g3 c10g4 rfl rfl).2 rfl rfl (by decide)⟩

end Dbdiffer
